import Mathlib

/-!
Verification of the layered configuration / authentication-precedence
subsystem of the KittyCAD CLI (package `internal/config` and the related
`cmd/config` and `cmd/alias` commands).

The Go code is shallowly embedded: process environment state becomes an
explicit `Env` record (Go's `os.Getenv` returns `""` for unset variables,
so "unset" and "set to empty" coincide, exactly as in the source), the
wrapped `Config` interface becomes a record of functions, Go's
`(value, err)` returns become pairs with an `Option`/`Except` error
component, and the YAML document tree becomes an inductive `YNode`
mirroring `yaml.Node`.
-/

/-- Environment variable names and the default host, from
`internal/config/from_env.go` and `internal/config/config_file.go`. -/
def KittyCADHostEnvVar : String := "KITTYCAD_HOST"

def KittyCADTokenEnvVar : String := "KITTYCAD_TOKEN"

def KittyCADAPITokenEnvVar : String := "KITTYCAD_API_TOKEN"

def KittyCADDefaultHost : String := "api.kittycad.io"

def KittyCADConfigDir : String := "KITTYCAD_CONFIG_DIR"

def KittyCADShorthandDir : String := "kittycad"

def KittyCADWindowsDir : String := "KittyCAD CLI"

/-- The process environment, restricted to the variables the config
subsystem reads.  Go's `os.Getenv` yields `""` for an unset variable, so
each field is a plain `String` and emptiness encodes unset-ness. -/
structure Env where
  kittycadToken : String
  kittycadApiToken : String
  kittycadHost : String
  kittycadConfigDir : String
  xdgConfigHome : String
  appData : String
  homeDir : String
  goosWindows : Bool
  deriving Repr, DecidableEq

/-- Errors surfaced by config operations.  `readOnlyEnv v` embeds
`ReadOnlyEnvError{Variable: v}` from `from_env.go`; every other error is
carried as its message string. -/
inductive ConfigError where
  | readOnlyEnv (varName : String)
  | other (msg : String)
  deriving Repr, DecidableEq

/-- The wrapped `Config` interface as consumed by the `envConfig`
decorator: only the methods the overlay delegates to.  Go methods return
a value together with an error; we keep both components (the overlay
inspects the host list even when the wrapped call errored). -/
structure GoConfig where
  getWithSource : String → String → String × String × Option ConfigError
  checkWriteable : String → String → Option ConfigError
  hosts : List String × Option ConfigError

/-- `AuthTokenFromEnv` from `from_env.go`: returns the auth token and the
environment variable name.  `KITTYCAD_TOKEN` is consulted first; the
`hostname` argument is not used by the body. -/
def AuthTokenFromEnv (env : Env) (_hostname : String) : String × String :=
  if env.kittycadToken ≠ "" then
    (env.kittycadToken, KittyCADTokenEnvVar)
  else
    (env.kittycadApiToken, KittyCADAPITokenEnvVar)

/-- `AuthTokenProvidedFromEnv` from `from_env.go`. -/
def AuthTokenProvidedFromEnv (env : Env) : Bool :=
  env.kittycadToken ≠ "" || env.kittycadApiToken ≠ ""

/-- `envConfig.GetWithSource` from `from_env.go`: for a non-empty
hostname and key `token`, a non-empty environment token is returned with
its variable name as source; otherwise the wrapped config is consulted. -/
def envConfigGetWithSource (env : Env) (c : GoConfig) (hostname key : String) :
    String × String × Option ConfigError :=
  if hostname ≠ "" ∧ key = "token" then
    let te := AuthTokenFromEnv env hostname
    if te.1 ≠ "" then (te.1, te.2, none)
    else c.getWithSource hostname key
  else c.getWithSource hostname key

/-- `envConfig.Get` from `from_env.go`: drops the source component of
`GetWithSource`. -/
def envConfigGet (env : Env) (c : GoConfig) (hostname key : String) :
    String × Option ConfigError :=
  let r := envConfigGetWithSource env c hostname key
  (r.1, r.2.2)

/-- `envConfig.CheckWriteable` from `from_env.go`: an active environment
token for a non-empty hostname and key `token` yields a
`ReadOnlyEnvError` carrying the variable name; otherwise the wrapped
config decides. -/
def envConfigCheckWriteable (env : Env) (c : GoConfig) (hostname key : String) :
    Option ConfigError :=
  if hostname ≠ "" ∧ key = "token" then
    let te := AuthTokenFromEnv env hostname
    if te.1 ≠ "" then some (ConfigError.readOnlyEnv te.2)
    else c.checkWriteable hostname key
  else c.checkWriteable hostname key

/-- `envConfig.Hosts` from `from_env.go`: prepends the default host to
the wrapped host list when an environment token is present and the
default host is missing from the wrapped list (or the wrapped lookup
errored).  The Go body builds the prepended slice with
`append([]string{...}, hosts...)`, a fresh slice; the wrapped config is
never mutated, which the pure embedding reflects inherently. -/
def envConfigHosts (env : Env) (c : GoConfig) : List String × Option ConfigError :=
  let hosts := c.hosts.1
  let err := c.hosts.2
  let hasDefault := hosts.contains KittyCADDefaultHost
  let token := (AuthTokenFromEnv env KittyCADDefaultHost).1
  if (err.isSome ∨ ¬hasDefault) ∧ token ≠ "" then
    (KittyCADDefaultHost :: hosts, none)
  else
    (hosts, err)

/-- `genKey` from `internal/config/stub.go`: host-qualified lookup key. -/
def genKey (host key : String) : String :=
  if host ≠ "" then host ++ ":" ++ key else key

/-- `Stub` from `internal/config/stub.go` as a `GoConfig`: an association
list plays the role of the Go map.  `GetWithSource` reports source
`"(memory)"` on a hit and the error `not found` on a miss;
`CheckWriteable` always succeeds; `Hosts` returns `nil, nil`. -/
def stubConfig (m : List (String × String)) : GoConfig where
  getWithSource h k :=
    match m.find? (fun e => e.1 = genKey h k) with
    | some e => (e.2, "(memory)", none)
    | none => ("", "", some (ConfigError.other "not found"))
  checkWriteable _ _ := none
  hosts := ([], none)

/-- Node kinds of `gopkg.in/yaml.v3`'s `yaml.Node`, plus `unset` for the
zero value of `yaml.Kind` (used by the literal `yaml.Node{Value: "hosts"}`
in `parseConfig`). -/
inductive YKind where
  | unset
  | document
  | sequence
  | mapping
  | scalar
  | aliasNode
  deriving Repr, DecidableEq

/-- A `yaml.Node`: kind, scalar value, attached head comment, children. -/
inductive YNode where
  | node (kind : YKind) (value : String) (headComment : String)
      (content : List YNode)

instance : Inhabited YNode := ⟨YNode.node YKind.unset "" "" []⟩

def YNode.kind : YNode → YKind
  | YNode.node k _ _ _ => k

def YNode.value : YNode → String
  | YNode.node _ v _ _ => v

def YNode.content : YNode → List YNode
  | YNode.node _ _ _ c => c

/-- `NewBlankRoot` from `internal/config/config.go`: the default config
document pre-populated with comments and default values. -/
def NewBlankRoot : YNode :=
  YNode.node YKind.document "" ""
    [YNode.node YKind.mapping "" ""
      [YNode.node YKind.scalar "prompt"
        "When to interactively prompt. This is a global config that cannot be overridden by hostname. Supported values: enabled, disabled"
        [],
       YNode.node YKind.scalar "enabled" "" [],
       YNode.node YKind.scalar "pager"
        "A pager program to send command output to, e.g. \"less\". Set the value to \"cat\" to disable the pager."
        [],
       YNode.node YKind.scalar "" "" [],
       YNode.node YKind.scalar "aliases"
        "Aliases allow you to create nicknames for kittycad commands"
        [],
       YNode.node YKind.mapping "" ""
        [YNode.node YKind.scalar "co" "" [],
         YNode.node YKind.scalar "file convert" "" []],
       YNode.node YKind.scalar "browser"
        "What web browser kittycad should use when opening URLs. If blank, will refer to environment."
        [],
       YNode.node YKind.scalar "" "" []]]

/-- One on-disk file as the config loader observes it: absent
(`os.IsNotExist`), unreadable for another reason, or present — in which
case we carry the outcome of `yaml.Unmarshal` on its bytes (the YAML
text parser itself is the external library collaborator). -/
inductive FileData where
  | missing
  | readErr (msg : String)
  | contents (unmarshal : Except String YNode)

/-- The two files `parseConfig` reads: the main config file passed as
`filename`, and `HostsConfigFile()`. -/
structure FS where
  config : FileData
  hostsFile : FileData

/-- Read errors, keeping Go's `os.IsNotExist` distinction observable. -/
inductive ReadError where
  | notExist
  | other (msg : String)
  deriving Repr, DecidableEq

/-- `parseConfigData` from `internal/config/config_file.go`, applied to
the unmarshal outcome: an empty document is replaced by a fresh
document-over-empty-mapping; a non-mapping top-level node is the hard
error `expected a top level map`. -/
def parseConfigData (r : Except String YNode) : Except String YNode :=
  match r with
  | Except.error e => Except.error e
  | Except.ok root =>
    if root.content.isEmpty then
      Except.ok (YNode.node YKind.document "" ""
        [YNode.node YKind.mapping "" "" []])
    else if (root.content.headD default).kind ≠ YKind.mapping then
      Except.error "expected a top level map"
    else Except.ok root

/-- `parseConfigFile` from `config_file.go`: `ReadConfigFile` then
`parseConfigData`; a missing file surfaces as the not-exist error. -/
def parseConfigFile (f : FileData) : Except ReadError YNode :=
  match f with
  | FileData.missing => Except.error ReadError.notExist
  | FileData.readErr m => Except.error (ReadError.other m)
  | FileData.contents u =>
    match parseConfigData u with
    | Except.error e => Except.error (ReadError.other e)
    | Except.ok root => Except.ok root

/-- The hosts-merging step of `parseConfig`: when the hosts document has
entries, a `hosts` key (a `yaml.Node` literal with zero kind) followed by
the hosts mapping is prepended to the main document's top-level content. -/
def injectHosts (root hostsTop : YNode) : YNode :=
  match root with
  | YNode.node k v hc content =>
    match content with
    | [] => YNode.node k v hc []
    | top :: rest =>
      match top with
      | YNode.node tk tv thc tcontent =>
        YNode.node k v hc
          (YNode.node tk tv thc
            (YNode.node YKind.unset "hosts" "" [] :: hostsTop :: tcontent)
            :: rest)

/-- `parseConfig` from `config_file.go`, up to the final `NewConfig`
wrapping (which only packages the root node): a missing main file is
replaced by `NewBlankRoot`, any other main-file failure is fatal; then
the hosts file is merged in when readable, its not-exist error is
swallowed, and any other hosts-file failure is fatal. -/
def parseConfig (fs : FS) : Except ReadError YNode :=
  let step2 : YNode → Except ReadError YNode := fun root =>
    match parseConfigFile fs.hostsFile with
    | Except.ok hostsRoot =>
      if (hostsRoot.content.headD default).content.length > 0 then
        Except.ok (injectHosts root (hostsRoot.content.headD default))
      else Except.ok root
    | Except.error ReadError.notExist => Except.ok root
    | Except.error e => Except.error e
  match parseConfigFile fs.config with
  | Except.error ReadError.notExist => step2 NewBlankRoot
  | Except.error e => Except.error e
  | Except.ok root => step2 root

/-- `filepath.Join` for two already-clean path segments (the `Clean`
normalisation pass of Go's implementation is an identity on the inputs
the config code supplies). -/
def filepathJoin (a b : String) : String :=
  if a = "" then b else if b = "" then a else a ++ "/" ++ b

/-- `Dir` from `config_file.go`: config path precedence
`KITTYCAD_CONFIG_DIR`, then `XDG_CONFIG_HOME/kittycad`, then (Windows
only) `AppData/KittyCAD CLI`, then `HOME/.config/kittycad`.  The
`autoMigrateConfigDir` call in the source is a best-effort filesystem
side effect whose result is discarded; it never alters the returned
path, so it is omitted here. -/
def Dir (env : Env) : String :=
  if env.kittycadConfigDir ≠ "" then
    env.kittycadConfigDir
  else if env.xdgConfigHome ≠ "" then
    filepathJoin env.xdgConfigHome KittyCADShorthandDir
  else if env.goosWindows ∧ env.appData ≠ "" then
    filepathJoin env.appData KittyCADWindowsDir
  else
    filepathJoin (filepathJoin env.homeDir ".config") KittyCADShorthandDir

/-- `Option` from `internal/config/config.go` (a config option record;
named `ConfigOption` here to avoid clashing with Lean's `Option`).  Go's
nil `AllowedValues` slice is embedded as the empty list. -/
structure ConfigOption where
  key : String
  description : String
  defaultValue : String
  allowedValues : List String
  deriving Repr, DecidableEq

/-- `configOptions` from `internal/config/config.go`. -/
def configOptions : List ConfigOption :=
  [{ key := "prompt",
     description := "toggle interactive prompting in the terminal",
     defaultValue := "enabled",
     allowedValues := ["enabled", "disabled"] },
   { key := "pager",
     description := "the terminal pager program to send standard output to",
     defaultValue := "",
     allowedValues := [] },
   { key := "browser",
     description := "the web browser to use for opening URLs",
     defaultValue := "",
     allowedValues := [] }]

/-- `ValidateKey` from `internal/config/config.go`: scans
`configOptions` for the key; unknown keys give the error `invalid key`. -/
def ValidateKey (key : String) : Except String Unit :=
  if configOptions.any (fun o => o.key = key) then Except.ok ()
  else Except.error "invalid key"

/-- `ValidateValue` from `internal/config/config.go`: finds the first
option with the given key and checks the value against its
`AllowedValues`.  A nil allow-list (unknown key, or an option without
one — embedded as `[]`) accepts every value; otherwise a value outside
the list yields `InvalidValueError` carrying the valid values, embedded
as `some validValues`. -/
def ValidateValue (key value : String) : Option (List String) :=
  let validValues :=
    match configOptions.find? (fun o => o.key = key) with
    | some o => o.allowedValues
    | none => []
  if validValues = [] then none
  else if validValues.contains value then none
  else some validValues

/-- A single-quote character as a string, used to build the messages the
CLI prints around key names and allowed values. -/
def squote : String := (Char.ofNat 39).toString

/-- Renders a Go `%q` verb for strings that need no escaping: the string
wrapped in double quotes. -/
def goQuote (s : String) : String := "\"" ++ s ++ "\""

/-- Modelled from the spec: `ConfigMap.SetStringValue`
(`internal/config/config_map.go` is not among the sources).  Spec 4.1:
"if key exists, replace value in place; else append a new key/value pair
preserving order (new keys go last). Never reorders existing keys."  The
flat alternating key/value node list is embedded as an association
list. -/
def SetStringValue (entries : List (String × String)) (key value : String) :
    List (String × String) :=
  if entries.any (fun e => e.1 = key) then
    entries.map (fun e => if e.1 = key then (e.1, value) else e)
  else
    entries ++ [(key, value)]

/-- Outcome of the `config set` command body: the final error-or-entries
result, everything printed to stderr, and whether `Write()` ran. -/
structure SetRunResult where
  result : Except String (List (String × String))
  stderrOut : String
  wrote : Bool
  deriving Repr

/-- Modelled from the spec: `setRun` of `cmd/config/set`
(`cmd/config/set/set.go` is not among the sources; only its test is).
Spec 6: `config set` "validates key against the registered option set
(warns, does not fail, on unknown key) and validates value against the
option's allow-list (fails with a message enumerating valid values) if
present"; the exact message shapes are fixed by `Test_setRun`:
the warning `! warning: '<key>' is not a known configuration key` and
the failure `failed to set "<key>" to "<value>": valid values are
'enabled', 'disabled'`.  On success the value is stored under the
host-qualified key and the config is written. -/
def configSetRun (entries : List (String × String))
    (hostname key value : String) : SetRunResult :=
  let warning :=
    match ValidateKey key with
    | Except.error _ =>
      "! warning: " ++ squote ++ key ++ squote ++
        " is not a known configuration key\n"
    | Except.ok _ => ""
  match ValidateValue key value with
  | some validValues =>
    { result := Except.error
        ("failed to set " ++ goQuote key ++ " to " ++ goQuote value ++
          ": valid values are " ++
          String.intercalate ", "
            (validValues.map (fun v => squote ++ v ++ squote))),
      stderrOut := warning,
      wrote := false }
  | none =>
    { result := Except.ok (SetStringValue entries (genKey hostname key) value),
      stderrOut := warning,
      wrote := true }

/-- Modelled from the spec: the global-scope lookup of `fileConfig.Get`
(`internal/config/file_config.go` is not among the sources).  Spec 4.3:
with an empty host, "look up the *global* section only", with absence
deferring "to the option's registered default"; spec 7: an unregistered
key is, "for `get`, surfaced as a plain error". -/
def fileConfigGetGlobal (entries : List (String × String)) (key : String) :
    Except String String :=
  match entries.find? (fun e => e.1 = key) with
  | some e => Except.ok e.2
  | none =>
    match configOptions.find? (fun o => o.key = key) with
    | some o => Except.ok o.defaultValue
    | none => Except.error ("could not find key " ++ goQuote key)

/-- `getRun` from `cmd/config/get/get.go`: fetch via the config's `Get`
and print the value when non-empty.  The printed stdout line is embedded
as `some value`; nothing printed is `none`. -/
def getRun (cfgGet : String → String → Except String String)
    (hostname key : String) : Except String (Option String) :=
  match cfgGet hostname key with
  | Except.error e => Except.error e
  | Except.ok val =>
    Except.ok (if val ≠ "" then some (val ++ "\n") else none)

/-- Go's `strings.HasPrefix`, computed on the character lists of the two
strings (equivalent to the byte-level test for the inputs involved). -/
def hasPrefixGo (s pre : String) : Bool :=
  pre.data.isPrefixOf s.data

/-- The validation-and-store body of `setRun` from
`cmd/alias/set/set.go` (after `getExpansion`, which returns the
expansion argument unchanged unless it is `-`): the `--shell` flag
forces a `!` prefix; an alias name that already resolves to a command is
rejected, and a non-shell expansion that does not resolve is rejected —
both before `aliasCfg.Add` stores anything.  `validCommand` is the
injected cobra-traversal predicate. -/
def aliasSetRun (validCommand : String → Bool) (name expansionArg : String)
    (isShellFlag : Bool) (aliases : List (String × String)) :
    Except String (List (String × String)) :=
  let expansion :=
    if isShellFlag ∧ ¬hasPrefixGo expansionArg "!" then "!" ++ expansionArg
    else expansionArg
  let isShell := hasPrefixGo expansion "!"
  if validCommand name then
    Except.error ("could not create alias: " ++ goQuote name ++
      " is already a kittycad command")
  else if ¬isShell ∧ ¬validCommand expansion then
    Except.error ("could not create alias: " ++ expansion ++
      " does not correspond to a kittycad command")
  else
    Except.ok (SetStringValue aliases name expansion)

/-- `AliasConfig.Add` from `internal/config/alias_config.go`, with the
two collaborators abstracted by their outcomes (`SetStringValue` on the
underlying `ConfigMap`, and the parent config's `Write`; `none` is a nil
Go error).  The second component counts how many times `Parent.Write()`
was invoked along the taken path. -/
def aliasConfigAdd (setOutcome writeOutcome : Option String) :
    Option String × Nat :=
  match setOutcome with
  | some e => (some ("failed to update config: " ++ e), 0)
  | none =>
    match writeOutcome with
    | some e => (some ("failed to write config: " ++ e), 1)
    | none => (none, 1)

/-- `AliasConfig.Delete` from `internal/config/alias_config.go`:
`RemoveEntry` (which cannot fail) followed by an unconditional
`Parent.Write()`.  Components as in `aliasConfigAdd`. -/
def aliasConfigDelete (writeOutcome : Option String) : Option String × Nat :=
  match writeOutcome with
  | some e => (some ("failed to write config: " ++ e), 1)
  | none => (none, 1)

/-- An all-empty environment (every variable unset), used as a base for
concrete test environments. -/
def blankEnv : Env :=
  { kittycadToken := "", kittycadApiToken := "", kittycadHost := "",
    kittycadConfigDir := "", xdgConfigHome := "", appData := "",
    homeDir := "", goosWindows := false }

/-- If either token environment variable is non-empty, the token that
`AuthTokenFromEnv` selects is non-empty. -/
theorem authToken_fst_ne_of_env (env : Env) (hostname : String)
    (ht : env.kittycadToken ≠ "" ∨ env.kittycadApiToken ≠ "") :
    (AuthTokenFromEnv env hostname).1 ≠ "" := by
  unfold AuthTokenFromEnv
  by_cases hk : env.kittycadToken = ""
  · simp [hk] at ht ⊢
    exact ht
  · simp [hk]

/-- With a non-empty hostname and a non-empty selected environment
token, the overlay's `GetWithSource` on key `token` short-circuits to the
environment pair. -/
theorem envGetWithSource_env_token (env : Env) (c : GoConfig)
    (hostname : String) (hh : hostname ≠ "")
    (htok : (AuthTokenFromEnv env hostname).1 ≠ "") :
    envConfigGetWithSource env c hostname "token" =
      ((AuthTokenFromEnv env hostname).1, (AuthTokenFromEnv env hostname).2,
        none) := by
  simp [envConfigGetWithSource, hh, htok]

/-- C1: for every non-empty hostname, if at least one of `KITTYCAD_TOKEN`
and `KITTYCAD_API_TOKEN` is non-empty, the env overlay's `GetWithSource`
on key `token` returns the environment token with the variable's name as
source and no error, its result is independent of the wrapped file
config, and `CheckWriteable` returns a `ReadOnlyEnvError` carrying that
variable's name. -/
theorem token_env_overrides_file (env : Env) (c : GoConfig) (hostname : String)
    (hh : hostname ≠ "")
    (ht : env.kittycadToken ≠ "" ∨ env.kittycadApiToken ≠ "") :
    envConfigGetWithSource env c hostname "token" =
      ((AuthTokenFromEnv env hostname).1, (AuthTokenFromEnv env hostname).2,
        none)
    ∧ (∀ c' : GoConfig, envConfigGetWithSource env c' hostname "token" =
        envConfigGetWithSource env c hostname "token")
    ∧ envConfigCheckWriteable env c hostname "token" =
      some (ConfigError.readOnlyEnv (AuthTokenFromEnv env hostname).2) := by
  have htok := authToken_fst_ne_of_env env hostname ht
  refine ⟨envGetWithSource_env_token env c hostname hh htok, ?_, ?_⟩
  · intro c'
    rw [envGetWithSource_env_token env c' hostname hh htok,
      envGetWithSource_env_token env c hostname hh htok]
  · simp [envConfigCheckWriteable, hh, htok]

/-- Witness for C1: with `KITTYCAD_TOKEN=T` and a file config holding a
different token for `example.org`, lookup returns the environment token
and writing is rejected. -/
theorem token_env_overrides_file_witness :
    (("example.org" : String) ≠ ""
      ∧ ((blankEnv.kittycadToken ≠ "" ∨ blankEnv.kittycadApiToken ≠ "")
          → False))
    ∧ envConfigGetWithSource { blankEnv with kittycadToken := "T" }
        (stubConfig [("example.org:token", "FILETOK")]) "example.org"
        "token" = ("T", "KITTYCAD_TOKEN", none)
    ∧ envConfigCheckWriteable { blankEnv with kittycadToken := "T" }
        (stubConfig [("example.org:token", "FILETOK")]) "example.org"
        "token" = some (ConfigError.readOnlyEnv "KITTYCAD_TOKEN") := by
  have h := token_env_overrides_file { blankEnv with kittycadToken := "T" }
    (stubConfig [("example.org:token", "FILETOK")]) "example.org"
    (by decide) (Or.inl (by decide))
  exact ⟨⟨by decide, by decide⟩, h.1, h.2.2⟩

/-- C2: `KITTYCAD_TOKEN` wins over `KITTYCAD_API_TOKEN` when both are
set non-empty, and when `KITTYCAD_TOKEN` is empty the `KITTYCAD_API_TOKEN`
value is returned, paired with its variable's name. -/
theorem authTokenFromEnv_most_specific_first (env : Env) (hostname : String) :
    (env.kittycadToken ≠ "" ∧ env.kittycadApiToken ≠ "" →
      AuthTokenFromEnv env hostname =
        (env.kittycadToken, KittyCADTokenEnvVar))
    ∧ (env.kittycadToken = "" →
      AuthTokenFromEnv env hostname =
        (env.kittycadApiToken, KittyCADAPITokenEnvVar)) := by
  constructor
  · intro ht
    simp [AuthTokenFromEnv, ht.1]
  · intro ht
    simp [AuthTokenFromEnv, ht]

/-- Witness for C2: both variables set prefers `KITTYCAD_TOKEN`; with
`KITTYCAD_TOKEN` unset the API token is used. -/
theorem authTokenFromEnv_most_specific_first_witness :
    AuthTokenFromEnv
        { blankEnv with kittycadToken := "GHTOKEN",
                        kittycadApiToken := "GITHUBTOKEN" }
        "api.kittycad.io" = ("GHTOKEN", "KITTYCAD_TOKEN")
    ∧ AuthTokenFromEnv { blankEnv with kittycadApiToken := "OTOKEN" }
        "api.kittycad.io" = ("OTOKEN", "KITTYCAD_API_TOKEN") :=
  ⟨(authTokenFromEnv_most_specific_first
      { blankEnv with kittycadToken := "GHTOKEN",
                      kittycadApiToken := "GITHUBTOKEN" }
      "api.kittycad.io").1 (by decide),
   (authTokenFromEnv_most_specific_first
      { blankEnv with kittycadApiToken := "OTOKEN" }
      "api.kittycad.io").2 (by decide)⟩

/-- C10: `AuthTokenFromEnv` never reads its hostname argument, so its
result agrees on any two hostnames; consequently, when an environment
token is set, the env overlay returns it for every non-empty hostname,
not only for the default host. -/
theorem authTokenFromEnv_ignores_hostname (env : Env) (c : GoConfig)
    (h1 h2 : String) (hh : h1 ≠ "")
    (ht : env.kittycadToken ≠ "" ∨ env.kittycadApiToken ≠ "") :
    AuthTokenFromEnv env h1 = AuthTokenFromEnv env h2
    ∧ envConfigGetWithSource env c h1 "token" =
      ((AuthTokenFromEnv env h2).1, (AuthTokenFromEnv env h2).2, none) := by
  have hsame : AuthTokenFromEnv env h1 = AuthTokenFromEnv env h2 := rfl
  refine ⟨hsame, ?_⟩
  have h := envGetWithSource_env_token env c h1 hh
    (authToken_fst_ne_of_env env h1 ht)
  rw [h, hsame]

/-- Witness for C10: with only `KITTYCAD_API_TOKEN` set, the token
lookup is identical for the default host and an unrelated host, and the
overlay serves the token for the non-default host. -/
theorem authTokenFromEnv_ignores_hostname_witness :
    (("example.org" : String) ≠ "")
    ∧ AuthTokenFromEnv { blankEnv with kittycadApiToken := "OTOKEN" }
        "example.org" =
      AuthTokenFromEnv { blankEnv with kittycadApiToken := "OTOKEN" }
        "api.kittycad.io"
    ∧ envConfigGetWithSource { blankEnv with kittycadApiToken := "OTOKEN" }
        (stubConfig []) "example.org" "token" =
      ("OTOKEN", "KITTYCAD_API_TOKEN", none) := by
  have h := authTokenFromEnv_ignores_hostname
    { blankEnv with kittycadApiToken := "OTOKEN" } (stubConfig [])
    "example.org" "api.kittycad.io" (by decide) (Or.inr (by decide))
  exact ⟨by decide, h.1, h.2⟩

/-- C3: `parseConfig` on a missing config file yields the pre-populated
blank default document and no error, while a config file that exists but
whose YAML root node is not a mapping fails hard with
`expected a top level map`. -/
theorem parseConfig_missing_vs_invalid (fs : FS) :
    (fs.config = FileData.missing → fs.hostsFile = FileData.missing →
      parseConfig fs = Except.ok NewBlankRoot)
    ∧ (∀ root : YNode, fs.config = FileData.contents (Except.ok root) →
      root.content.isEmpty = false →
      (root.content.headD default).kind ≠ YKind.mapping →
      parseConfig fs =
        Except.error (ReadError.other "expected a top level map")) := by
  constructor
  · intro hc hh
    simp [parseConfig, parseConfigFile, hc, hh]
  · intro root hc hne hk
    simp only [List.headD_eq_head?_getD] at hk
    simp [parseConfig, parseConfigFile, parseConfigData, hc, hne, hk]

/-- Witness for C3: both files absent gives the blank default; a config
file whose root is a bare scalar gives the structural error. -/
theorem parseConfig_missing_vs_invalid_witness :
    parseConfig { config := FileData.missing, hostsFile := FileData.missing } =
      Except.ok NewBlankRoot
    ∧ parseConfig
        { config := FileData.contents (Except.ok
            (YNode.node YKind.document "" ""
              [YNode.node YKind.scalar "just-a-string" "" []])),
          hostsFile := FileData.missing } =
      Except.error (ReadError.other "expected a top level map") :=
  ⟨(parseConfig_missing_vs_invalid
      { config := FileData.missing, hostsFile := FileData.missing }).1
      rfl rfl,
   (parseConfig_missing_vs_invalid
      { config := FileData.contents (Except.ok
          (YNode.node YKind.document "" ""
            [YNode.node YKind.scalar "just-a-string" "" []])),
        hostsFile := FileData.missing }).2
      (YNode.node YKind.document "" ""
        [YNode.node YKind.scalar "just-a-string" "" []])
      rfl rfl (by decide)⟩

/-- C4: config directory precedence — a non-empty `KITTYCAD_CONFIG_DIR`
is returned verbatim; otherwise a non-empty `XDG_CONFIG_HOME` is joined
with `kittycad`, regardless of the remaining variables. -/
theorem dir_env_precedence (env : Env) :
    (env.kittycadConfigDir ≠ "" → Dir env = env.kittycadConfigDir)
    ∧ (env.kittycadConfigDir = "" → env.xdgConfigHome ≠ "" →
      Dir env = filepathJoin env.xdgConfigHome "kittycad") := by
  constructor
  · intro h
    simp [Dir, h]
  · intro h1 h2
    simp [Dir, KittyCADShorthandDir, h1, h2]

/-- Witness for C4: `XDG_CONFIG_HOME=/tmp/x` alone resolves to
`/tmp/x/kittycad`; adding `KITTYCAD_CONFIG_DIR=/tmp/y` resolves to
`/tmp/y`. -/
theorem dir_env_precedence_witness :
    Dir { blankEnv with xdgConfigHome := "/tmp/x" } = "/tmp/x/kittycad"
    ∧ Dir { blankEnv with kittycadConfigDir := "/tmp/y",
                          xdgConfigHome := "/tmp/x" } = "/tmp/y" := by
  have h1 := (dir_env_precedence { blankEnv with xdgConfigHome := "/tmp/x" }).2
    (by decide) (by decide)
  have h2 := (dir_env_precedence
    { blankEnv with kittycadConfigDir := "/tmp/y",
                    xdgConfigHome := "/tmp/x" }).1 (by decide)
  exact ⟨h1.trans (by decide), h2⟩

/-- C5: `alias set` rejects a name that already resolves to a kittycad
command with the exact quoted-name error, and rejects a non-shell
expansion (no `!` prefix, no `--shell` flag) that does not resolve with
the exact does-not-correspond error; both happen before anything is
stored (the error result carries no updated alias map). -/
theorem alias_set_validation_errors (validCommand : String → Bool)
    (name expansionArg : String) (isShellFlag : Bool)
    (aliases : List (String × String)) :
    (validCommand name = true →
      aliasSetRun validCommand name expansionArg isShellFlag aliases =
        Except.error ("could not create alias: " ++ goQuote name ++
          " is already a kittycad command"))
    ∧ (validCommand name = false → isShellFlag = false →
      hasPrefixGo expansionArg "!" = false →
      validCommand expansionArg = false →
      aliasSetRun validCommand name expansionArg isShellFlag aliases =
        Except.error ("could not create alias: " ++ expansionArg ++
          " does not correspond to a kittycad command")) := by
  constructor
  · intro h
    simp [aliasSetRun, h]
  · intro h1 h2 h3 h4
    simp [aliasSetRun, h1, h2, h3, h4]

/-- Witness for C5: with subcommands `file` and `file convert`, naming an
alias `file` collides, and the misspelt expansion `flie convert` under a
fresh name does not resolve. -/
theorem alias_set_validation_errors_witness :
    ((fun s => s == "file" || s == "file convert") "file" = true
      ∧ (fun s => s == "file" || s == "file convert") "fc" = false)
    ∧ aliasSetRun (fun s => s == "file" || s == "file convert") "file"
        "file convert" false [] =
      Except.error ("could not create alias: " ++ goQuote "file" ++
        " is already a kittycad command")
    ∧ aliasSetRun (fun s => s == "file" || s == "file convert") "fc"
        "flie convert" false [] =
      Except.error ("could not create alias: " ++ "flie convert" ++
        " does not correspond to a kittycad command") :=
  ⟨⟨by decide, by decide⟩,
   (alias_set_validation_errors (fun s => s == "file" || s == "file convert")
      "file" "file convert" false []).1 (by decide),
   (alias_set_validation_errors (fun s => s == "file" || s == "file convert")
      "fc" "flie convert" false []).2 (by decide) rfl (by decide)
      (by decide)⟩

/-- C6: `config set prompt invalid` fails with exactly
`failed to set "prompt" to "invalid": valid values are 'enabled',
'disabled'`, and `ValidateValue` accepts every value for a key with no
registered allow-list. -/
theorem config_set_prompt_allowlist :
    (configSetRun [] "" "prompt" "invalid").result =
      Except.error ("failed to set " ++ goQuote "prompt" ++ " to " ++
        goQuote "invalid" ++ ": valid values are " ++
        squote ++ "enabled" ++ squote ++ ", " ++ squote ++ "disabled" ++
        squote)
    ∧ ∀ (key value : String),
      (∀ o ∈ configOptions, o.key = key → o.allowedValues = []) →
      ValidateValue key value = none := by
  constructor
  · rfl
  · intro key value h
    unfold ValidateValue
    cases hf : configOptions.find? (fun o => o.key = key) with
    | none => simp
    | some o =>
      have hmem := List.mem_of_find?_eq_some hf
      have hkey : o.key = key := by
        have := List.find?_some hf
        simpa using this
      simp [h o hmem hkey]

/-- Witness for C6: `pager` has no allow-list, so any value validates. -/
theorem config_set_prompt_allowlist_witness :
    (∀ o ∈ configOptions, o.key = "pager" → o.allowedValues = [])
    ∧ ValidateValue "pager" "more" = none :=
  ⟨by decide, config_set_prompt_allowlist.2 "pager" "more" (by decide)⟩

/-- C7: an unregistered key makes `config get` fail, while `config set`
of the same key succeeds — the value is stored under the host-qualified
key, the config is written — and only the warning line
`! warning: '<key>' is not a known configuration key` goes to stderr. -/
theorem unknown_key_get_set_asymmetry (key hostname value : String)
    (entries : List (String × String))
    (hk : ValidateKey key = Except.error "invalid key")
    (he : entries.find? (fun e => e.1 = key) = none) :
    (∃ e, getRun (fun _ k => fileConfigGetGlobal entries k) "" key =
      Except.error e)
    ∧ (configSetRun entries hostname key value).result =
      Except.ok (SetStringValue entries (genKey hostname key) value)
    ∧ (configSetRun entries hostname key value).wrote = true
    ∧ (configSetRun entries hostname key value).stderrOut =
      "! warning: " ++ squote ++ key ++ squote ++
        " is not a known configuration key\n" := by
  have hany : configOptions.any (fun o => o.key = key) = false := by
    by_cases h : configOptions.any (fun o => o.key = key) = true
    · simp [ValidateKey, h] at hk
    · simpa using h
  have hfind : configOptions.find? (fun o => o.key = key) = none := by
    rw [List.find?_eq_none]
    intro o hmem
    have := (List.any_eq_false).mp hany o hmem
    simpa using this
  have hvv : ValidateValue key value = none := by
    simp [ValidateValue, hfind]
  refine ⟨?_, ?_, ?_, ?_⟩
  · refine ⟨"could not find key " ++ goQuote key, ?_⟩
    simp [getRun, fileConfigGetGlobal, he, hfind]
  · simp [configSetRun, hvv]
  · simp [configSetRun, hvv]
  · simp [configSetRun, hvv, hk]

/-- Witness for C7: the key `unknownKey` against a config holding only
`pager: more`. -/
theorem unknown_key_get_set_asymmetry_witness :
    (ValidateKey "unknownKey" = Except.error "invalid key"
      ∧ List.find? (fun e => e.1 = "unknownKey") [("pager", "more")] = none)
    ∧ (∃ e, getRun (fun _ k => fileConfigGetGlobal [("pager", "more")] k)
        "" "unknownKey" = Except.error e)
    ∧ (configSetRun [("pager", "more")] "" "unknownKey" "someValue").result =
      Except.ok (SetStringValue [("pager", "more")]
        (genKey "" "unknownKey") "someValue")
    ∧ (configSetRun [("pager", "more")] "" "unknownKey" "someValue").wrote =
      true
    ∧ (configSetRun [("pager", "more")] "" "unknownKey"
        "someValue").stderrOut =
      "! warning: " ++ squote ++ "unknownKey" ++ squote ++
        " is not a known configuration key\n" := by
  have h := unknown_key_get_set_asymmetry "unknownKey" "" "someValue"
    [("pager", "more")] rfl rfl
  exact ⟨⟨rfl, rfl⟩, h.1, h.2.1, h.2.2.1, h.2.2.2⟩

/-- C8: the env overlay's `Hosts` returns the default host prepended to
the wrapped host list, with a nil error, exactly when an environment
token is non-empty and the default host is missing from the wrapped list
or the wrapped lookup errored; in every other case the wrapped result is
passed through untouched.  The wrapped config itself is a read-only
input of the embedding, so no persisted state can change. -/
theorem envConfig_hosts_prepends_default (env : Env) (c : GoConfig) :
    (envConfigHosts env c = (KittyCADDefaultHost :: c.hosts.1, none) ↔
      ((AuthTokenFromEnv env KittyCADDefaultHost).1 ≠ "" ∧
        ((c.hosts.2).isSome = true ∨
          c.hosts.1.contains KittyCADDefaultHost = false)))
    ∧ (¬((AuthTokenFromEnv env KittyCADDefaultHost).1 ≠ "" ∧
        ((c.hosts.2).isSome = true ∨
          c.hosts.1.contains KittyCADDefaultHost = false)) →
      envConfigHosts env c = c.hosts) := by
  constructor
  · constructor
    · intro hres
      unfold envConfigHosts at hres
      by_cases hcond : ((c.hosts.2).isSome ∨
          ¬(c.hosts.1.contains KittyCADDefaultHost)) ∧
          (AuthTokenFromEnv env KittyCADDefaultHost).1 ≠ ""
      · refine ⟨hcond.2, ?_⟩
        rcases hcond.1 with h | h
        · exact Or.inl h
        · exact Or.inr (by simpa using h)
      · simp only [if_neg hcond] at hres
        have h1 : c.hosts.1 = KittyCADDefaultHost :: c.hosts.1 :=
          congrArg Prod.fst hres
        exact absurd h1.symm (List.cons_ne_self _ _)
    · intro hrhs
      have hcond : ((c.hosts.2).isSome ∨
          ¬(c.hosts.1.contains KittyCADDefaultHost)) ∧
          (AuthTokenFromEnv env KittyCADDefaultHost).1 ≠ "" := by
        refine ⟨?_, hrhs.1⟩
        rcases hrhs.2 with h | h
        · exact Or.inl h
        · exact Or.inr (by simpa using h)
      unfold envConfigHosts
      simp only [if_pos hcond]
  · intro hneg
    have hcond : ¬(((c.hosts.2).isSome ∨
        ¬(c.hosts.1.contains KittyCADDefaultHost)) ∧
        (AuthTokenFromEnv env KittyCADDefaultHost).1 ≠ "") := by
      intro hc2
      apply hneg
      refine ⟨hc2.2, ?_⟩
      rcases hc2.1 with h | h
      · exact Or.inl h
      · exact Or.inr (by simpa using h)
    unfold envConfigHosts
    simp only [if_neg hcond]

/-- Witness for C8: with `KITTYCAD_API_TOKEN=OTOKEN` over a blank file
config (no hosts), the default host is synthesized; with no environment
token at all, the wrapped (empty) host list passes through unchanged. -/
theorem envConfig_hosts_prepends_default_witness :
    envConfigHosts { blankEnv with kittycadApiToken := "OTOKEN" }
      (stubConfig []) = (["api.kittycad.io"], none)
    ∧ envConfigHosts blankEnv (stubConfig []) = (stubConfig []).hosts := by
  constructor
  · exact (envConfig_hosts_prepends_default
      { blankEnv with kittycadApiToken := "OTOKEN" } (stubConfig [])).1.mpr
      ⟨by decide, Or.inr (by decide)⟩
  · exact (envConfig_hosts_prepends_default blankEnv (stubConfig [])).2
      (by decide)

/-- C9: a successful `AliasConfig.Add` or `AliasConfig.Delete` is exactly
one that invoked the parent `Write()` and saw no failure — `Add` succeeds
precisely when both the underlying set and the write succeed, the
successful paths perform exactly one write, and `Delete` always performs
exactly one write. -/
theorem alias_mutation_always_writes (s w : Option String) :
    ((aliasConfigAdd s w).1 = none ↔ s = none ∧ w = none)
    ∧ aliasConfigAdd none none = (none, 1)
    ∧ ((aliasConfigDelete w).1 = none ↔ w = none)
    ∧ (aliasConfigDelete w).2 = 1 := by
  refine ⟨?_, rfl, ?_, ?_⟩
  · cases s <;> cases w <;> simp [aliasConfigAdd]
  · cases w <;> simp [aliasConfigDelete]
  · cases w <;> simp [aliasConfigDelete]
